import Mathlib

/-
Verification of the MCP host core (the mcp_host package): a shallow
embedding of chat_session.py, client_manager.py, mcpclient.py and
stdio_client.py, with theorems about the tool-dispatch loop, the bounded
message history, argument post-processing, tool-result normalization,
tool routing and the stdio request/response correlation loop.

Modelling conventions: JSON-like Python runtime values are the inductive
type Value; Python dicts are ordered association lists; a raised Python
exception is the error channel of Except String; asynchronous calls are
modelled as pure functions supplied as parameters (the model provider,
the transports); wall-clock instants read by stdio_client.send_message
are modelled as natural-number milliseconds attached to each read event.
-/

namespace MCPHost

/-- JSON-like runtime values manipulated by the Python code.  Python dicts
are modelled as association lists that keep insertion order (Python dicts
are ordered); keys are strings, as everywhere in this code base. -/
inductive Value where
  | null
  | bool (b : Bool)
  | int (n : Int)
  | str (s : String)
  | list (items : List Value)
  | dict (entries : List (String × Value))
  deriving Repr

mutual

/-- Structural boolean equality of values (Python `==` on JSON data). -/
def beqValue : Value → Value → Bool
  | .null, .null => true
  | .bool a, .bool b => a == b
  | .int a, .int b => a == b
  | .str a, .str b => a == b
  | .list a, .list b => beqVList a b
  | .dict a, .dict b => beqVEntries a b
  | _, _ => false

def beqVList : List Value → List Value → Bool
  | [], [] => true
  | a :: as, b :: bs => beqValue a b && beqVList as bs
  | _, _ => false

def beqVEntries : List (String × Value) → List (String × Value) → Bool
  | [], [] => true
  | (ka, va) :: as, (kb, vb) :: bs => ka == kb && beqValue va vb && beqVEntries as bs
  | _, _ => false

end

mutual

theorem beqValue_iff : ∀ a b, beqValue a b = true ↔ a = b
  | a, b => by
    cases a <;> cases b <;>
      simp only [beqValue, beq_iff_eq, Value.list.injEq, Value.dict.injEq,
        Value.bool.injEq, Value.int.injEq, Value.str.injEq, reduceCtorEq,
        Bool.false_eq_true, iff_false, not_false_eq_true, iff_true] <;>
      first
        | rfl
        | exact beqVList_iff _ _
        | exact beqVEntries_iff _ _

theorem beqVList_iff : ∀ a b, beqVList a b = true ↔ a = b
  | [], [] => by simp [beqVList]
  | [], _ :: _ => by simp [beqVList]
  | _ :: _, [] => by simp [beqVList]
  | a :: as, b :: bs => by
    simp only [beqVList, Bool.and_eq_true, List.cons.injEq]
    rw [beqValue_iff, beqVList_iff]

theorem beqVEntries_iff : ∀ a b, beqVEntries a b = true ↔ a = b
  | [], [] => by simp [beqVEntries]
  | [], _ :: _ => by simp [beqVEntries]
  | _ :: _, [] => by simp [beqVEntries]
  | (ka, va) :: as, (kb, vb) :: bs => by
    simp only [beqVEntries, Bool.and_eq_true, List.cons.injEq, Prod.mk.injEq, beq_iff_eq]
    rw [beqValue_iff, beqVEntries_iff]
    try tauto

end

instance : DecidableEq Value := fun a b =>
  decidable_of_iff (beqValue a b = true) (beqValue_iff a b)

/-- First-match lookup in an association list, as Python dict lookup
(duplicate keys cannot arise in a real Python dict). -/
def flookup {β : Type} : List (String × β) → String → Option β
  | [], _ => none
  | (k, v) :: rest, key => if k = key then some v else flookup rest key

/-- Python dict assignment `d[k] = v`: replace the value in place when the
key is present, otherwise append the new pair. -/
def dictAssign {β : Type} : List (String × β) → String → β → List (String × β)
  | [], k, v => [(k, v)]
  | (k0, v0) :: rest, k, v =>
      if k0 = k then (k0, v) :: rest else (k0, v0) :: dictAssign rest k v

/-- Python truthiness of a value (`if x:`). -/
def pyTruthy : Value → Bool
  | .null => false
  | .bool b => b
  | .int n => n != 0
  | .str s => !(s == "")
  | .list items => !items.isEmpty
  | .dict entries => !entries.isEmpty

/-- Is the value a Python dict. -/
def isDict : Value → Bool
  | .dict _ => true
  | _ => false

/-- Containment of a character sequence in another (Python `sub in s` on
strings). -/
def listContainsSub (sep : List Char) : List Char → Bool
  | [] => sep.isEmpty
  | c :: rest => sep.isPrefixOf (c :: rest) || listContainsSub sep rest

/-- Split at the first occurrence of a separator: the part before the
leftmost occurrence and everything after it; none when the separator does
not occur. -/
def splitFirstAt (sep : List Char) : List Char → Option (List Char × List Char)
  | [] => none
  | c :: rest =>
      if sep.isPrefixOf (c :: rest) then some ([], (c :: rest).drop sep.length)
      else match splitFirstAt sep rest with
        | some (a, b) => some (c :: a, b)
        | none => none

/-- Python `name.split("__", 1)` when `"__" in name` holds: the leftmost
split; none when the separator is absent. -/
def splitOnceDD (s : String) : Option (String × String) :=
  match splitFirstAt ['_', '_'] s.data with
  | some (a, b) => some (String.mk a, String.mk b)
  | none => none

/-- Python `"__" in s`. -/
def containsDD (s : String) : Bool :=
  (splitOnceDD s).isSome

/-- Python `s.endswith(suf)`: a suffix test on the character sequences. -/
def strEndsWith (s suf : String) : Bool :=
  suf.data.isSuffixOf s.data

/-- Python `key in x` for a string key: key membership for dicts,
sub-string test for strings, element equality for lists, and a TypeError
(modelled on the error channel) for any other value. -/
def pyIn (key : String) : Value → Except String Bool
  | .dict entries => .ok (flookup entries key).isSome
  | .str s => .ok (listContainsSub key.data s.data)
  | .list items => .ok (items.contains (.str key))
  | _ => .error "TypeError: argument of type is not iterable"

/-- Python subscription `x[key]` with a string key: dict lookup (KeyError
when the key is absent), TypeError on anything else. -/
def pyGetItem (v : Value) (key : String) : Except String Value :=
  match v with
  | .dict entries =>
      match flookup entries key with
      | some r => .ok r
      | none => .error ("KeyError: " ++ key)
  | _ => .error "TypeError: value is not subscriptable with a string key"

/-- Python `d.get(key, default)` on a value expected to be a dict:
AttributeError when the value is not a dict. -/
def pyDictGet (v : Value) (key : String) (dflt : Value) : Except String Value :=
  match v with
  | .dict entries => .ok ((flookup entries key).getD dflt)
  | _ => .error "AttributeError: object has no attribute get"

/-- One character of Python `repr` of a string (default single-quoted
form; the escapes this code base can produce). -/
def pyReprChar (c : Char) : String :=
  if c = '\\' then "\\\\"
  else if c = '\x27' then "\\\x27"
  else if c = '\n' then "\\n"
  else if c = '\t' then "\\t"
  else if c = '\r' then "\\r"
  else String.mk [c]

/-- Python `repr` of a string: single-quoted with escapes. -/
def pyReprStr (s : String) : String :=
  "\x27" ++ String.join (s.data.map pyReprChar) ++ "\x27"

mutual

/-- Python `repr` of a value: `None`, `True`, `False`, decimal integers,
single-quoted strings, bracketed lists and braced dicts with `, ` and
`: ` separators.  This is also Python `str` on every value except
strings. -/
def pyRepr : Value → String
  | .null => "None"
  | .bool b => if b then "True" else "False"
  | .int n => toString n
  | .str s => pyReprStr s
  | .list items => "[" ++ String.intercalate ", " (pyReprList items) ++ "]"
  | .dict entries => "\x7b" ++ String.intercalate ", " (pyReprEntries entries) ++ "\x7d"

def pyReprList : List Value → List String
  | [] => []
  | v :: rest => pyRepr v :: pyReprList rest

def pyReprEntries : List (String × Value) → List String
  | [] => []
  | (k, v) :: rest => (pyReprStr k ++ ": " ++ pyRepr v) :: pyReprEntries rest

end

/-- Python `str(x)` as used in f-strings: the string itself for strings,
`repr` otherwise. -/
def pyFormat : Value → String
  | .str s => s
  | v => pyRepr v

/-- One character of JSON string output. -/
def jsonEscChar (c : Char) : String :=
  if c = '\\' then "\\\\"
  else if c = '"' then "\\\""
  else if c = '\n' then "\\n"
  else if c = '\t' then "\\t"
  else if c = '\r' then "\\r"
  else String.mk [c]

/-- JSON rendering of a string, double-quoted. -/
def jsonStr (s : String) : String :=
  "\"" ++ String.join (s.data.map jsonEscChar) ++ "\""

mutual

/-- Python `json.dumps(x, indent=2)` at nesting level `lvl`: containers
spread over lines with two-space indentation per level. -/
def jsonDumps (lvl : Nat) : Value → String
  | .null => "null"
  | .bool b => if b then "true" else "false"
  | .int n => toString n
  | .str s => jsonStr s
  | .list items =>
      match jsonDumpsList (lvl + 1) items with
      | [] => "[]"
      | rendered =>
          "[\n" ++ String.intercalate ",\n" rendered
            ++ "\n" ++ String.join (List.replicate lvl "  ") ++ "]"
  | .dict entries =>
      match jsonDumpsEntries (lvl + 1) entries with
      | [] => "\x7b\x7d"
      | rendered =>
          "\x7b\n" ++ String.intercalate ",\n" rendered
            ++ "\n" ++ String.join (List.replicate lvl "  ") ++ "\x7d"

def jsonDumpsList (lvl : Nat) : List Value → List String
  | [] => []
  | v :: rest =>
      (String.join (List.replicate lvl "  ") ++ jsonDumps lvl v)
        :: jsonDumpsList lvl rest

def jsonDumpsEntries (lvl : Nat) : List (String × Value) → List String
  | [] => []
  | (k, v) :: rest =>
      (String.join (List.replicate lvl "  ") ++ jsonStr k ++ ": " ++ jsonDumps lvl v)
        :: jsonDumpsEntries lvl rest

end

/-- Python slice `l[-w:]` for an arbitrary integer `w` (the code computes
`self.messages[-self.message_window:]`): a negative start index counts
from the end and is clamped at zero; minus zero is zero, which keeps the
whole list. -/
def pySliceLast {α : Type} (w : Int) (l : List α) : List α :=
  let s : Int := -w
  let start : Nat := if s < 0 then ((l.length : Int) + s).toNat else min s.toNat l.length
  l.drop start

/-! ## chat_session.py: ContentBlock, Message, ChatSession -/

/-- The ContentBlock dataclass of chat_session.py: a flat record of
optional fields, discriminated by `type`. -/
structure ContentBlock where
  type : String
  text : Option String := none
  id : Option String := none
  tool_use_id : Option String := none
  name : Option String := none
  input : Option Value := none
  content : Option Value := none
  deriving Repr, DecidableEq

/-- The Message dataclass: a role and a list of content blocks. -/
structure Message where
  role : String
  content : List ContentBlock
  deriving Repr, DecidableEq

/-- Message.get_text_content: join, with single spaces, the text of the
blocks whose type is text and whose text is truthy. -/
def Message.get_text_content (m : Message) : String :=
  String.intercalate " "
    (m.content.filterMap (fun b =>
      if b.type = "text" then
        match b.text with
        | some t => if t = "" then none else some t
        | none => none
      else none))

/-- Message.get_tool_calls: the (id, name, input) triples of the tool_use
blocks. -/
def Message.get_tool_calls (m : Message) :
    List (Option String × Option String × Option Value) :=
  (m.content.filter (fun b => b.type == "tool_use")).map (fun b => (b.id, b.name, b.input))

/-- Message.has_content: the content list is non-empty. -/
def Message.has_content (m : Message) : Bool :=
  decide (m.content.length > 0)

/-- The mutable state of a ChatSession that the verified operations read
and write: the window size, the message history and the tool mapping. -/
structure SessState where
  message_window : Int
  messages : List Message
  tool_mapping : List (String × String)
  deriving Repr

/-- ChatSession.add_message on the bare history list: append when the
message has content, then prune to the last `window` entries when the
length exceeds the window (the Python slice `messages[-window:]`). -/
def addMessageList (window : Int) (messages : List Message) (m : Message) : List Message :=
  if m.has_content then
    let appended := messages ++ [m]
    if (appended.length : Int) > window then pySliceLast window appended else appended
  else messages

/-- ChatSession.add_message on the session state. -/
def addMessage (st : SessState) (m : Message) : SessState :=
  { st with messages := addMessageList st.message_window st.messages m }

/-- The last `w` entries of a list (all of it when shorter): what the
pruning slice keeps for a positive window. -/
def lastWindow {α : Type} (w : Int) (l : List α) : List α :=
  l.drop (l.length - w.toNat)

/-- The history produced by a sequence of add_message calls starting from
the fresh (empty) history of a ChatSession. -/
def historyAfter (window : Int) (incoming : List Message) : List Message :=
  incoming.foldl (addMessageList window) []

/-- ChatSession._get_namespaced_tool_name: a name containing a double
underscore is returned unchanged; otherwise the tool mapping is
consulted. -/
def getNamespacedToolName (mapping : List (String × String)) (tool_name : String) :
    Option String :=
  if containsDD tool_name then some tool_name
  else flookup mapping tool_name

/-- ChatSession._process_tool_arguments: falsy or non-dict arguments pass
through; for a tool name ending in fetch, a present-but-None max_length
becomes 5000 and a present-but-None start_index becomes 0; finally every
None-valued key is dropped. -/
def processToolArguments (tool_name : String) (arguments : Value) : Value :=
  if !pyTruthy arguments || !isDict arguments then arguments
  else
    match arguments with
    | .dict entries =>
        let processed :=
          if strEndsWith tool_name "fetch" then
            let p1 :=
              if flookup entries "max_length" = some .null then
                dictAssign entries "max_length" (.int 5000)
              else entries
            if flookup p1 "start_index" = some .null then
              dictAssign p1 "start_index" (.int 0)
            else p1
          else entries
        .dict (processed.filter (fun kv => decide (kv.2 ≠ .null)))
    | _ => arguments

/-- A flat text content block, `[
    dict type text, dict text t]` on the wire. -/
def textBlock (t : String) : Value :=
  .dict [("type", .str "text"), ("text", .str t)]

/-- The check of ChatSession._transform_tool_result_content on one element
of a content list: a dict that has a type key. -/
def contentItemOk (item : Value) : Bool :=
  match item with
  | .dict fs => (flookup fs "type").isSome
  | _ => false

/-- ChatSession._create_text_content_blocks: a string is wrapped directly,
anything else is JSON-serialized with indent 2 (json.dumps cannot fail on
these values, so the bare-str fallback of the Python code is dead). -/
def createTextContentBlocks (data : Value) : List Value :=
  match data with
  | .str s => [textBlock s]
  | v => [textBlock (jsonDumps 0 v)]

/-- The dict cases (error, text, dumps) of
ChatSession._transform_tool_result_content. -/
def dictTransform (entries : List (String × Value)) : List Value :=
  match flookup entries "error" with
  | some errorMsg => [textBlock ("Error: " ++ pyFormat errorMsg)]
  | none =>
      match flookup entries "text" with
      | some tv => [.dict [("type", .str "text"), ("text", tv)]]
      | none => [textBlock (jsonDumps 0 (.dict entries))]

/-- ChatSession._transform_tool_result_content: a dict with a content list
whose elements are all typed dicts is returned verbatim; a malformed
content list falls back to _create_text_content_blocks of the whole
result; a string is wrapped; a dict is handled by its error, text or
serialized form; anything else is stringified and wrapped. -/
def transformToolResultContent (result : Value) : List Value :=
  match result with
  | .str s => [textBlock s]
  | .dict entries =>
      match flookup entries "content" with
      | some (.list items) =>
          if items.all contentItemOk then items
          else createTextContentBlocks (.dict entries)
      | some _ => dictTransform entries
      | none => dictTransform entries
  | other => [textBlock (pyFormat other)]

/-- Truthiness of the running tool_name variable of
_generate_final_response (an Optional string). -/
def optStrTruthy : Option String → Bool
  | none => false
  | some s => !(s == "")

/-- The inner scan of _generate_final_response: the first tool_use block
of a message whose id equals the given tool_use_id. -/
def firstMatchingToolUse (blocks : List ContentBlock) (tuid : Option String) :
    Option ContentBlock :=
  blocks.find? (fun b => b.type == "tool_use" && b.id == tuid)

/-- The tool-name recovery loop of _generate_final_response: walk earlier
messages newest-first; at each assistant message overwrite the running
name with the name of the first matching tool_use block when one exists,
then stop as soon as the running name is truthy. -/
def searchToolName (tuid : Option String) : Option String → List Message → Option String
  | cur, [] => cur
  | cur, m :: rest =>
      if m.role == "assistant" then
        let cur2 :=
          match firstMatchingToolUse m.content tuid with
          | some blk => blk.name
          | none => cur
        if optStrTruthy cur2 then cur2 else searchToolName tuid cur2 rest
      else searchToolName tuid cur rest

/-- The data extraction of _generate_final_response for one tool_result
block: some value when the Python code assigns tool_data (the text of the
first text-typed dict of a content list, or a string content), none when
it leaves tool_data untouched. -/
def extractBlockToolData (block : ContentBlock) : Option Value :=
  match block.content with
  | some (.list items) =>
      match items.find? (fun it =>
        match it with
        | .dict fs => (flookup fs "type").getD .null == Value.str "text"
        | _ => false) with
      | some (.dict fs) => some ((flookup fs "text").getD .null)
      | _ => none
  | some (.str s) => some (.str s)
  | _ => none

/-- The per-message block loop of _generate_final_response, threading the
running (tool_data, tool_name) pair; stops early when tool_data becomes
truthy. -/
def scanBlocksForData (allMsgs : List Message) (msg : Message)
    (st : Value × Option String) : List ContentBlock → Value × Option String
  | [] => st
  | block :: rest =>
      if block.type == "tool_result" then
        let prevs := (allMsgs.take (allMsgs.indexOf msg)).reverse
        let name2 := searchToolName block.tool_use_id st.2 prevs
        let data2 := (extractBlockToolData block).getD st.1
        if pyTruthy data2 then (data2, name2)
        else scanBlocksForData allMsgs msg (data2, name2) rest
      else scanBlocksForData allMsgs msg st rest

/-- The outer message loop of _generate_final_response over the reversed
history. -/
def scanMsgsForData (allMsgs : List Message) (st : Value × Option String) :
    List Message → Value × Option String
  | [] => st
  | msg :: rest =>
      if msg.role == "tool" then
        let st2 := scanBlocksForData allMsgs msg st msg.content
        if pyTruthy st2.1 then st2 else scanMsgsForData allMsgs st2 rest
      else scanMsgsForData allMsgs st rest

/-- Python `len` of a value: strings, lists and dicts are sized, anything
else raises a TypeError. -/
def pyLen : Value → Except String Nat
  | .str s => .ok s.length
  | .list items => .ok items.length
  | .dict entries => .ok entries.length
  | _ => .error "TypeError: object has no len"

/-- The truncation `tool_data[:500] + "..."` of _generate_final_response,
applied only when the length exceeds 500; slicing then concatenating a
string works, anything else raises. -/
def truncateToolData (v : Value) : Except String Value := do
  let n ← pyLen v
  if n > 500 then
    match v with
    | .str s => .ok (.str (s.take 500 ++ "..."))
    | _ => .error "TypeError: can only concatenate str to str"
  else .ok v

/-- The user-text scan of the generic fallback: the first user message of
the given window with truthy text. -/
def findUserText : List Message → String
  | [] => ""
  | m :: rest =>
      if m.role == "user" then
        let t := m.get_text_content
        if t == "" then findUserText rest else t
      else findUserText rest

/-- The body of ChatSession._generate_final_response after the explicit
fallback-text case: extract the latest tool payload and synthesize a
summary, otherwise build a clarification prompt from recent user text. -/
def genFallbackBody (st : SessState) : Except String String :=
  let scanned := scanMsgsForData st.messages (.null, none) st.messages.reverse
  let toolData := scanned.1
  let toolName := scanned.2
  if pyTruthy toolData then do
    let toolContext := if optStrTruthy toolName then " using the " ++ toolName.getD "" else ""
    let summary ← truncateToolData toolData
    pure ("I retrieved the following information" ++ toolContext ++ ":\n\n" ++ pyFormat summary)
  else
    let promptHistory := findUserText (pySliceLast 3 st.messages)
    if promptHistory == "" then
      pure "I\x27m having trouble generating a response. Could you please provide more details or rephrase your question?"
    else
      pure ("I\x27ve processed your request about \"" ++ promptHistory.take 50
        ++ (if promptHistory.length > 50 then "..." else "")
        ++ "\" but I\x27m having trouble providing a complete response. Could you please clarify or rephrase your question?")

/-- ChatSession._generate_final_response: a truthy explicit fallback text
is returned as is, otherwise the contextual fallback body runs. -/
def generateFinalResponse (st : SessState) (fallbackText : Option String) :
    Except String String :=
  match fallbackText with
  | some t => if t == "" then genFallbackBody st else pure t
  | none => genFallbackBody st

/-- ChatSession.refresh_tool_mapping inner loop: for every tool whose name
contains a double underscore, map the bare suffix and the full name to
the full name; a tool record without a name key, or with a non-string
name, raises (KeyError or TypeError). -/
def refreshToolMappingAux (mapping : List (String × String)) :
    List Value → Except String (List (String × String))
  | [] => .ok mapping
  | tool :: rest => do
      let nameV ← pyGetItem tool "name"
      match nameV with
      | .str nm =>
          match splitOnceDD nm with
          | some (_, originalName) =>
              refreshToolMappingAux (dictAssign (dictAssign mapping originalName nm) nm nm) rest
          | none => refreshToolMappingAux mapping rest
      | _ => .error "TypeError: argument of type is not iterable"

/-- ChatSession.refresh_tool_mapping: rebuild the tool mapping from the
freshly fetched tool list. -/
def refreshToolMapping (tools : List Value) : Except String (List (String × String)) :=
  refreshToolMappingAux [] tools

/-- The collaborators of a ChatSession for one user turn: the model
provider (create_message over the history and an optional tool list), the
tool catalog the manager returns during this turn (the fresh fetch of
iteration zero and the cache returned by the skip_refresh calls of later
iterations coincide, see the C9 theorem), and the manager call_tool
behavior, whose error channel models a raised exception. -/
structure LlmEnv where
  llm : List Message → Option (List Value) → Message
  allTools : List Value
  callTool : String → Value → Except String Value

/-- A tool-role message carrying one tool_result block with the given
content list. -/
def toolResultMessage (toolId : Option String) (contentList : List Value) : Message :=
  { role := "tool",
    content := [{ type := "tool_result", tool_use_id := toolId,
                  content := some (.list contentList) }] }

/-- The synthesized tool message that carries an error text. -/
def toolErrorMessage (toolId : Option String) (txt : String) : Message :=
  toolResultMessage toolId [textBlock txt]

/-- One iteration of the tool-call loop of _process_prompt_with_limit for
a single (id, name, input) triple: parse a string input as JSON (wrapping
it on failure), default a missing input to an empty dict, resolve the
name (a None name raises, an unresolved name appends the
tool-not-found message), post-process the arguments with the original
name, call the manager with the namespaced name, and append the
normalized tool_result (or the execution-error text when the call
raised). -/
def processOneToolCall (jloads : String → Option Value)
    (mgr : String → Value → Except String Value) (st : SessState)
    (tc : Option String × Option String × Option Value) : Except String SessState :=
  let toolInput : Value :=
    match tc.2.2 with
    | some (.str s) =>
        match jloads s with
        | some v => v
        | none => .dict [("input", .str s)]
    | none => .dict []
    | some v => v
  match tc.2.1 with
  | none => .error "TypeError: argument of type NoneType is not iterable"
  | some toolName =>
      let namespacedOpt := getNamespacedToolName st.tool_mapping toolName
      if namespacedOpt = none ∨ namespacedOpt = some "" then
        .ok (addMessage st (toolErrorMessage tc.1
          ("Error: Tool \x27" ++ toolName
            ++ "\x27 not found or not available in any connected server.")))
      else
        let namespacedToolName := namespacedOpt.getD ""
        let processedInput := processToolArguments toolName toolInput
        match mgr namespacedToolName processedInput with
        | .ok result =>
            .ok (addMessage st (toolResultMessage tc.1 (transformToolResultContent result)))
        | .error e =>
            .ok (addMessage st (toolErrorMessage tc.1
              ("Error executing tool \x27" ++ toolName ++ "\x27: " ++ e)))

/-- The tool-call loop over all triples of one assistant message; an
uncaught exception aborts the loop and is reported with the state reached
so far. -/
def processToolCalls (jloads : String → Option Value)
    (mgr : String → Value → Except String Value) (st : SessState) :
    List (Option String × Option String × Option Value) → SessState × Option String
  | [] => (st, none)
  | tc :: rest =>
      match processOneToolCall jloads mgr st tc with
      | .ok st2 => processToolCalls jloads mgr st2 rest
      | .error e => (st, some e)

/-- The sentinel text of the recursion-cap branch. -/
def sentinelText (maxIterations : Nat) : String :=
  "I\x27ve reached the maximum number of tool interactions ("
    ++ toString maxIterations ++ ")."

/-- ChatSession._process_prompt_with_limit.  The fuel argument is
maxIterations minus currentIteration, introduced only to make the
recursion structural: fuel zero is exactly the guard
current_iteration >= max_iterations of the code, and the recursive call
(guarded by currentIteration < maxIterations - 1) keeps the relation.
The result triple is the returned (or raised) reply, the final session
state and the number of create_message invocations performed. -/
def processAux (env : LlmEnv) (jloads : String → Option Value) (maxIterations : Nat) :
    Nat → Nat → Option String → SessState → Except String String × SessState × Nat
  | 0, _, _, st => (generateFinalResponse st (some (sentinelText maxIterations)), st, 0)
  | fuel + 1, currentIteration, prompt, st =>
      if currentIteration ≥ maxIterations then
        (generateFinalResponse st (some (sentinelText maxIterations)), st, 0)
      else
        let st1 :=
          match prompt with
          | some p =>
              if p ≠ "" ∧ currentIteration = 0 then
                addMessage st { role := "user", content := [{ type := "text", text := some p }] }
              else st
          | none => st
        let step2 : Except String (List Value × SessState) :=
          if currentIteration = 0 then
            match refreshToolMapping env.allTools with
            | .ok mp => .ok (env.allTools, { st1 with tool_mapping := mp })
            | .error e => .error e
          else .ok (env.allTools, st1)
        match step2 with
        | .error e => (.error e, st1, 0)
        | .ok (tools, st2) =>
            let toolsToUse : Option (List Value) :=
              if currentIteration < maxIterations - 1 then some tools else none
            let llmResponse := env.llm st2.messages toolsToUse
            let st3 := addMessage st2 llmResponse
            let textContent := llmResponse.get_text_content
            let toolCalls := llmResponse.get_tool_calls
            if toolCalls = [] then
              (if textContent = "" then generateFinalResponse st3 none else .ok textContent,
               st3, 1)
            else
              match processToolCalls jloads env.callTool st3 toolCalls with
              | (st4, some e) => (.error e, st4, 1)
              | (st4, none) =>
                  let finalResponse := env.llm st4.messages toolsToUse
                  let st5 := addMessage st4 finalResponse
                  if finalResponse.get_tool_calls ≠ [] ∧ currentIteration < maxIterations - 1 then
                    let r := processAux env jloads maxIterations fuel (currentIteration + 1) none st5
                    (r.1, r.2.1, r.2.2 + 2)
                  else
                    let textResponse := finalResponse.get_text_content
                    (if textResponse = "" then generateFinalResponse st5 none else .ok textResponse,
                     st5, 2)

/-- ChatSession._process_prompt_with_limit at its Python signature. -/
def processPromptWithLimit (env : LlmEnv) (jloads : String → Option Value)
    (prompt : Option String) (maxIterations currentIteration : Nat) (st : SessState) :
    Except String String × SessState × Nat :=
  processAux env jloads maxIterations (maxIterations - currentIteration)
    currentIteration prompt st

/-- ChatSession.process_prompt: the limit-guarded loop with
max_iterations 5, starting at iteration 0. -/
def processPrompt (env : LlmEnv) (jloads : String → Option Value) (prompt : String)
    (st : SessState) : Except String String × SessState × Nat :=
  processPromptWithLimit env jloads (some prompt) 5 0 st

/-! ## mcpclient.py: MCPClient.call_tool -/

/-- The try-block of MCPClient.call_tool applied to the transport
response: return the result field of a truthy response; convert an error
field to an error record using its message (default Unknown error);
anything else is an invalid response.  Exceptions travel on the error
channel. -/
def callToolBody (response : Value) : Except String Value := do
  if pyTruthy response then
    if (← pyIn "result" response) then
      pyGetItem response "result"
    else if (← pyIn "error" response) then do
      let errObj ← pyGetItem response "error"
      let msg ← pyDictGet errObj "message" (.str "Unknown error")
      pure (.dict [("error", msg)])
    else
      pure (.dict [("error", .str "Invalid response from server")])
  else
    pure (.dict [("error", .str "Invalid response from server")])

/-- MCPClient.call_tool around the transport exchange: the argument is
the outcome of transport.send_message (a response value, or a raised
exception on the error channel); every exception inside the try block is
caught and converted to an error record carrying the exception text. -/
def clientCallTool (sendOutcome : Except String Value) : Value :=
  match sendOutcome >>= callToolBody with
  | .ok v => v
  | .error e => .dict [("error", .str e)]

/-! ## client_manager.py: MCPClientManager -/

/-- MCPClientManager.call_tool: split the namespaced name on the first
double underscore (the unpacking of a one-element split raises ValueError,
caught into the invalid-format record); look up the client by the server
name; delegate.  A client is modelled as its call_tool function, which
never raises (see the C6 theorem). -/
def managerCallTool (clients : List (String × (String → Value → Value)))
    (namespacedToolName : String) (arguments : Value) : Value :=
  match splitOnceDD namespacedToolName with
  | none => .dict [("error", .str ("Invalid tool name format: " ++ namespacedToolName))]
  | some (serverName, toolName) =>
      match flookup clients serverName with
      | none => .dict [("error", .str ("Server " ++ serverName ++ " not found"))]
      | some clientFn => clientFn toolName arguments

/-- The namespacing of one tool dict inside get_all_tools: copy the dict
and overwrite its name with server__name; a tool without a name key or a
non-dict tool raises (caught by the per-client handler). -/
def namespaceTool (server : String) (tool : Value) : Except String Value :=
  match tool with
  | .dict entries =>
      match flookup entries "name" with
      | some n => .ok (.dict (dictAssign entries "name" (.str (server ++ "__" ++ pyFormat n))))
      | none => .error "KeyError: name"
  | _ => .error "TypeError: value is not subscriptable with a string key"

/-- The per-client tool collection of get_all_tools: tools are appended
one by one; an exception mid-list keeps the tools already appended and
moves on to the next client (the try wraps the whole per-client block). -/
def collectClientTools (acc : List Value) (server : String) : List Value → List Value
  | [] => acc
  | tool :: rest =>
      match namespaceTool server tool with
      | .ok t2 => collectClientTools (acc ++ [t2]) server rest
      | .error _ => acc

/-- The behavior of the clients during one get_all_tools call: for each
server name, the outcome of client.list_tools (a tool list, or a raised
exception on the error channel). -/
abbrev ClientsEnv := List (String × Except String (List Value))

/-- MCPClientManager.get_all_tools: return the cache when skip_refresh is
set and a cache exists; otherwise collect namespaced tools from every
client (a failing client contributes what it managed, never aborting the
traversal), store the concatenation as the new cache and return it.  The
result pairs the returned list with the cache after the call. -/
def getAllTools (clients : ClientsEnv) (skipRefresh : Bool)
    (cachedTools : Option (List Value)) : List Value × Option (List Value) :=
  if skipRefresh ∧ cachedTools ≠ none then
    (cachedTools.getD [], cachedTools)
  else
    let allTools := clients.foldl (fun acc nc =>
      match nc.2 with
      | .ok tools => collectClientTools acc nc.1 tools
      | .error _ => acc) []
    (allTools, some allTools)

/-- A sequence of get_all_tools calls against one manager, from a given
cache: for each call, whether the call actually refreshed (did not take
the cache-return path) and the list it returned. -/
def runGetAllTools (cache : Option (List Value)) :
    List (Bool × ClientsEnv) → List (Bool × List Value)
  | [] => []
  | (skip, clients) :: rest =>
      let r := getAllTools clients skip cache
      (!(skip && cache.isSome), r.1) :: runGetAllTools r.2 rest

/-- The cache after a sequence of get_all_tools calls. -/
def cacheAfterCalls (cache : Option (List Value)) :
    List (Bool × ClientsEnv) → Option (List Value)
  | [] => cache
  | (skip, clients) :: rest => cacheAfterCalls (getAllTools clients skip cache).2 rest

/-! ## stdio_client.py: StdioClient.send_message -/

/-- One attempted read of the response loop of send_message: a per-read
timeout (asyncio.TimeoutError from wait_for), an empty line (end of
stream), or a line, carrying its parsed JSON value or none for a
json.JSONDecodeError. -/
inductive ReadOutcome where
  | timeoutErr
  | eof
  | line (parsed : Option Value)
  deriving Repr, DecidableEq

/-- One iteration of the response loop: the elapsed wall-clock
milliseconds observed at the loop guard, and the outcome of the read. -/
structure ReadEvent where
  tElapsed : Nat
  outcome : ReadOutcome
  deriving Repr, DecidableEq

/-- The outcome of send_message: a returned response, the TimeoutError
raised at the overall deadline, another uncaught exception, or a finite
event trace that ended before the loop decided. -/
inductive SendResult where
  | response (v : Value)
  | timedOut
  | raised (e : String)
  | starved
  deriving Repr, DecidableEq

/-- The overall deadline of the response loop, in milliseconds
(`timeout = 10.0` seconds in the code). -/
def stdioTimeoutMs : Nat := 10000

/-- The response loop of StdioClient.send_message: while the elapsed time
is below the deadline, read; skip per-read timeouts, empty lines and
undecodable lines; skip notifications (a method and no id); return the
response whose id equals the request id; warn and skip other traffic.
The membership tests and the id subscription follow Python semantics and
can raise on non-dict lines. -/
def sendLoop (requestId : Value) : List ReadEvent → SendResult
  | [] => .starved
  | e :: rest =>
      if e.tElapsed < stdioTimeoutMs then
        match e.outcome with
        | .timeoutErr => sendLoop requestId rest
        | .eof => sendLoop requestId rest
        | .line none => sendLoop requestId rest
        | .line (some response) =>
            match (do
              let hasId ← pyIn "id" response
              let hasMethod ← pyIn "method" response
              if !hasId && hasMethod then
                pure none
              else if hasId then do
                let rid ← pyGetItem response "id"
                pure (some (decide (rid = requestId)))
              else
                pure (some false) : Except String (Option Bool)) with
            | .error ex => .raised ex
            | .ok none => sendLoop requestId rest
            | .ok (some true) => .response response
            | .ok (some false) => sendLoop requestId rest
      else .timedOut

/-- StdioClient.send_message after the write: a message with a method and
no id is a notification and returns an empty dict at once, reading
nothing; otherwise the request id is message.get an id (None when absent)
and the response loop runs over the stdout events. -/
def sendMessage (message : Value) (events : List ReadEvent) : SendResult :=
  match (do
    let hasMethod ← pyIn "method" message
    let hasId ← pyIn "id" message
    pure (hasMethod && !hasId) : Except String Bool) with
  | .error ex => .raised ex
  | .ok true => .response (.dict [])
  | .ok false =>
      match pyDictGet message "id" .null with
      | .error ex => .raised ex
      | .ok requestId => sendLoop requestId events

/-- The id field of a parsed line, when the line is a dict. -/
def idOfResponse : Value → Option Value
  | .dict entries => flookup entries "id"
  | _ => none

/-- An event trace restriction: every successfully decoded line is a
JSON object (the shape all real JSON-RPC traffic has). -/
def lineDictOk (ev : ReadEvent) : Bool :=
  match ev.outcome with
  | .line (some v) => isDict v
  | _ => true

/-- Modelled from the spec sentence for the send loop: read
newline-delimited lines, skip notifications and responses whose id does
not match, return the first response whose id equals the request id, and
fail with Timeout when the overall deadline elapses. -/
def sendLoopSpec (requestId : Value) : List ReadEvent → SendResult
  | [] => .starved
  | e :: rest =>
      if e.tElapsed < stdioTimeoutMs then
        match e.outcome with
        | .line (some response) =>
            if idOfResponse response = some requestId then .response response
            else sendLoopSpec requestId rest
        | _ => sendLoopSpec requestId rest
      else .timedOut

/-! ## Concrete scenario: a model that always answers with a tool call

A model provider stub that on every invocation returns an assistant
message containing a single tool_use block, for a tool whose manager
call always succeeds (scenario S4 of the spec). -/

/-- The stub assistant reply: one tool_use block, no text. -/
def stubAssistantMessage : Message :=
  { role := "assistant",
    content := [{ type := "tool_use", id := some "1", name := some "srv__ping", input := none }] }

/-- The stub environment: the provider always replies with the tool_use
message, the catalog is empty, and the manager call always succeeds with
a well-formed text content payload. -/
def stubEnv : LlmEnv :=
  { llm := fun _ _ => stubAssistantMessage,
    allTools := [],
    callTool := fun _ _ =>
      .ok (.dict [("content", .list [.dict [("type", .str "text"), ("text", .str "pong")]])]) }

/-- A JSON parser is never consulted in the stub scenario (the tool_use
input is absent); any stub suffices. -/
def stubJloads : String → Option Value := fun _ => none

/-- A fresh ChatSession state: default window 10, empty history, empty
tool mapping. -/
def initState : SessState := { message_window := 10, messages := [], tool_mapping := [] }

end MCPHost

namespace MCPHost

/-! ## Claims C1 and C2: the iteration cap -/

/-- Every level of the recursion performs at most two create_message
invocations and decreases the remaining fuel. -/
theorem processAux_count_le (env : LlmEnv) (jloads : String → Option Value)
    (maxIterations : Nat) :
    ∀ fuel currentIteration prompt st,
      (processAux env jloads maxIterations fuel currentIteration prompt st).2.2 ≤ 2 * fuel := by
  intro fuel
  induction fuel with
  | zero => intro c p st; simp [processAux]
  | succ n ih =>
      intro c p st
      simp only [processAux]
      repeat' split
      all_goals dsimp only
      all_goals try omega
      all_goals (rw [Nat.mul_succ]; exact Nat.add_le_add_right (ih _ _ _) 2)

/-- Claim C1, amended: for every model provider, manager behavior, JSON
parser, prompt and starting state, process_prompt invokes the model
provider create_message at most 10 times before returning: two calls per
recursion level (the tool-answer call and the follow-up call) over at
most 5 levels. -/
theorem claim_C1 (env : LlmEnv) (jloads : String → Option Value) (prompt : String)
    (st : SessState) :
    (processPrompt env jloads prompt st).2.2 ≤ 10 := by
  have h := processAux_count_le env jloads 5 5 0 (some prompt) st
  simpa [processPrompt, processPromptWithLimit] using h

/-- Claim C1, counterexample: with the stub provider that always returns
a tool_use block and a manager call that always succeeds, process_prompt
performs exactly 10 create_message invocations, so the claimed bound of
5 is violated. -/
theorem claim_C1_counterexample :
    ¬ ((processPrompt stubEnv stubJloads "hi" initState).2.2 ≤ 5) := by
  have h : (processPrompt stubEnv stubJloads "hi" initState).2.2 = 10 := rfl
  omega

/-- Claim C2, counterexample: with the stub provider that on every
invocation returns an assistant message containing a tool_use block for
a tool that always succeeds, process_prompt does not return the
sentinel string about reaching the maximum number of tool interactions:
the recursion stops one step before the guard that would produce it. -/
theorem claim_C2_counterexample :
    (processPrompt stubEnv stubJloads "hi" initState).1 ≠ .ok (sentinelText 5) := by
  have h : (processPrompt stubEnv stubJloads "hi" initState).1
      = .ok "I retrieved the following information using the srv__ping:\n\npong" := rfl
  rw [h]
  intro hc
  exact absurd (Except.ok.inj hc) (by decide)

/-- Claim C2, amended: with such a provider the cap path never yields the
sentinel; process_prompt instead returns the synthesized fallback built
from the last tool result (the recursion guard that emits the sentinel
requires entering with current_iteration at least max_iterations, which
process_prompt, starting at 0 and recursing only while
current_iteration < max_iterations - 1, never does). -/
theorem claim_C2 :
    (processPrompt stubEnv stubJloads "hi" initState).1
      = .ok "I retrieved the following information using the srv__ping:\n\npong" := rfl

end MCPHost

namespace MCPHost

/-! ## Claim C4: result normalization -/

/-- Every output of the normalization is a list whose elements are all
typed dicts (the shape its own verbatim case accepts). -/
theorem transform_wellFormed (v : Value) :
    (transformToolResultContent v).all contentItemOk = true := by
  match v with
  | .null | .bool _ | .int _ | .list _ =>
      simp [transformToolResultContent, contentItemOk, textBlock, flookup]
  | .str s => simp [transformToolResultContent, contentItemOk, textBlock, flookup]
  | .dict entries =>
      simp only [transformToolResultContent]
      split
      · split
        · assumption
        · simp [createTextContentBlocks, contentItemOk, textBlock, flookup]
      · unfold dictTransform
        split
        · simp [contentItemOk, textBlock, flookup]
        · split <;> simp [contentItemOk, textBlock, flookup]
      · unfold dictTransform
        split
        · simp [contentItemOk, textBlock, flookup]
        · split <;> simp [contentItemOk, textBlock, flookup]

/-- Normalizing a dict whose content field is a well-formed block list
returns that list verbatim. -/
theorem transform_of_wellFormed (l : List Value) (h : l.all contentItemOk = true) :
    transformToolResultContent (.dict [("content", .list l)]) = l := by
  have e1 : flookup [("content", Value.list l)] "content" = some (.list l) := rfl
  simp only [transformToolResultContent, e1, h, if_true]

/-- Claim C4, amended: normalization is stable modulo the wire wrapping:
for every input, normalizing a mapping whose content field is the
previous output returns that output unchanged.  Applying the function
directly to its own output (a bare list) instead falls to the stringify
case and wraps it in a single text block. -/
theorem claim_C4 (v : Value) :
    transformToolResultContent (.dict [("content", .list (transformToolResultContent v))])
      = transformToolResultContent v :=
  transform_of_wellFormed _ (transform_wellFormed v)

/-- Claim C4, counterexample: normalization is not idempotent: applied to
its own output for the input string hi, it wraps the output list in a
new text block instead of returning it unchanged. -/
theorem claim_C4_counterexample :
    transformToolResultContent (.list (transformToolResultContent (.str "hi")))
      ≠ transformToolResultContent (.str "hi") := by decide

/-! ## Claim C5: fetch argument post-processing -/

/-- Claim C5: for every tool whose name ends with fetch, argument
post-processing maps the record with url x, null max_length, null
start_index and null cookie to exactly url x, max_length 5000,
start_index 0: the present-but-null fetch parameters are defaulted and
every remaining null-valued key is dropped. -/
theorem claim_C5 (toolName : String) (h : strEndsWith toolName "fetch" = true) :
    processToolArguments toolName
        (.dict [("url", .str "x"), ("max_length", .null),
                ("start_index", .null), ("cookie", .null)])
      = .dict [("url", .str "x"), ("max_length", .int 5000), ("start_index", .int 0)] := by
  simp [processToolArguments, h, pyTruthy, isDict, flookup, dictAssign]

/-- Witness for C5 at the tool name web_fetch of the spec scenario. -/
theorem claim_C5_witness :
    strEndsWith "web_fetch" "fetch" = true
    ∧ processToolArguments "web_fetch"
        (.dict [("url", .str "x"), ("max_length", .null),
                ("start_index", .null), ("cookie", .null)])
      = .dict [("url", .str "x"), ("max_length", .int 5000), ("start_index", .int 0)] :=
  ⟨by decide, claim_C5 "web_fetch" (by decide)⟩

end MCPHost

namespace MCPHost

/-! ## Claims C6 and C7: client and manager call_tool -/

/-- Reduction of bind on a successful Except value. -/
theorem mBindOk {α β : Type} (a : α) (f : α → Except String β) :
    (Except.ok a >>= f) = f a := rfl

/-- Reduction of bind on a failed Except value. -/
theorem mBindErr {α β : Type} (e : String) (f : α → Except String β) :
    ((Except.error e : Except String α) >>= f) = Except.error e := rfl

/-- Reduction of map on a successful Except value. -/
theorem mMapOk {α β : Type} (a : α) (f : α → β) :
    (f <$> (Except.ok a : Except String α)) = Except.ok (f a) := rfl

/-- Reduction of map on a failed Except value. -/
theorem mMapErr {α β : Type} (e : String) (f : α → β) :
    (f <$> (Except.error e : Except String α)) = (Except.error e : Except String β) := rfl

/-- Reduction of pure into Except. -/
theorem mPure {α : Type} (a : α) : (pure a : Except String α) = Except.ok a := rfl

/-- call_tool on a delivered response is the body applied to it, with
raised exceptions converted to error records. -/
theorem clientCallTool_ok (response : Value) :
    clientCallTool (.ok response)
      = match callToolBody response with
        | .ok v => v
        | .error e => .dict [("error", .str e)] := rfl

/-- The body returns the result field of a response that has one. -/
theorem callToolBody_result (es : List (String × Value)) (r : Value)
    (hr : flookup es "result" = some r) : callToolBody (.dict es) = .ok r := by
  have hemp : es.isEmpty = false := by
    cases es
    · simp [flookup] at hr
    · rfl
  simp [callToolBody, pyTruthy, pyIn, pyGetItem, hemp, hr, mBindOk]

/-- The body converts a dict-valued error field into an error record
carrying its message, defaulting to Unknown error. -/
theorem callToolBody_error (es fs : List (String × Value))
    (hr : flookup es "result" = none) (herr : flookup es "error" = some (.dict fs)) :
    callToolBody (.dict es)
      = .ok (.dict [("error", (flookup fs "message").getD (.str "Unknown error"))]) := by
  have hemp : es.isEmpty = false := by
    cases es
    · simp [flookup] at herr
    · rfl
  simp [callToolBody, pyTruthy, pyIn, pyGetItem, pyDictGet, hemp, hr, herr,
    mBindOk, mMapOk, mPure]

/-- Exhaustive disposition of the try-block body: for every delivered
response it either returns the result field, or returns an error record,
or raises (and the raise is caught one level up). -/
theorem callToolBody_cases (response : Value) :
    (∃ es r, response = .dict es ∧ flookup es "result" = some r ∧ callToolBody response = .ok r)
    ∨ (∃ m, callToolBody response = .ok (.dict [("error", m)]))
    ∨ (∃ e, callToolBody response = .error e) := by
  match response with
  | .null => right; left; exact ⟨_, rfl⟩
  | .bool b =>
      cases b
      · right; left; exact ⟨_, rfl⟩
      · right; right; exact ⟨_, rfl⟩
  | .int n =>
      by_cases hn : n = 0
      · subst hn; right; left; exact ⟨_, rfl⟩
      · right; right
        simp only [callToolBody, pyTruthy, pyIn, hn, bne_iff_ne, ne_eq, not_false_eq_true,
          if_true, mBindErr]
        exact ⟨_, rfl⟩
  | .str s =>
      by_cases hs : s = ""
      · subst hs; right; left; exact ⟨_, rfl⟩
      · have hst : (s == "") = false := by simpa using hs
        cases hres : listContainsSub "result".data s.data
        · cases herr : listContainsSub "error".data s.data
          · right; left
            simp only [callToolBody, pyTruthy, pyIn, pyGetItem, hst, hres, herr, mBindOk,
              Bool.not_false, if_true, Bool.false_eq_true, if_false, mPure]
            exact ⟨_, rfl⟩
          · right; right
            simp only [callToolBody, pyTruthy, pyIn, pyGetItem, hst, hres, herr, mBindOk,
              Bool.not_false, if_true, Bool.false_eq_true, if_false, mBindErr]
            exact ⟨_, rfl⟩
        · right; right
          simp only [callToolBody, pyTruthy, pyIn, pyGetItem, hst, hres, mBindOk,
            Bool.not_false, if_true, mBindErr]
          exact ⟨_, rfl⟩
  | .list items =>
      by_cases hl : items.isEmpty = true
      · right; left
        simp only [callToolBody, pyTruthy, hl, Bool.not_true, Bool.false_eq_true, if_false]
        exact ⟨_, rfl⟩
      · have hle : items.isEmpty = false := by simpa using hl
        cases hres : items.contains (Value.str "result")
        · cases herr : items.contains (Value.str "error")
          · right; left
            simp only [callToolBody, pyTruthy, pyIn, pyGetItem, hle, hres, herr, mBindOk,
              Bool.not_false, if_true, Bool.false_eq_true, if_false, mPure]
            exact ⟨_, rfl⟩
          · right; right
            simp only [callToolBody, pyTruthy, pyIn, pyGetItem, hle, hres, herr, mBindOk,
              Bool.not_false, if_true, Bool.false_eq_true, if_false, mBindErr]
            exact ⟨_, rfl⟩
        · right; right
          simp only [callToolBody, pyTruthy, pyIn, pyGetItem, hle, hres, mBindOk,
            Bool.not_false, if_true, mBindErr]
          exact ⟨_, rfl⟩
  | .dict es =>
      by_cases he : es.isEmpty = true
      · right; left
        simp only [callToolBody, pyTruthy, he, Bool.not_true, Bool.false_eq_true, if_false]
        exact ⟨_, rfl⟩
      · have hemp : es.isEmpty = false := by simpa using he
        cases hr : flookup es "result" with
        | some r => exact Or.inl ⟨es, r, rfl, hr, callToolBody_result es r hr⟩
        | none =>
            cases herr : flookup es "error" with
            | some ev =>
                match ev with
                | .dict fs => exact Or.inr (Or.inl ⟨_, callToolBody_error es fs hr herr⟩)
                | .null | .bool _ | .int _ | .str _ | .list _ =>
                    right; right
                    simp only [callToolBody, pyTruthy, pyIn, pyGetItem, pyDictGet, hemp, hr,
                      herr, mBindOk, mMapErr, Bool.not_false, if_true, Option.isSome_some,
                      Option.isSome_none, Bool.false_eq_true, if_false]
                    exact ⟨_, rfl⟩
            | none =>
                right; left
                simp only [callToolBody, pyTruthy, pyIn, hemp, hr, herr, mBindOk,
                  Bool.not_false, if_true, Option.isSome_none, Bool.false_eq_true, if_false]
                exact ⟨_, rfl⟩

/-- Claim C6: MCPClient.call_tool never raises past its boundary: it is a
total function of the transport outcome; on a response containing a
result field it returns that result; on a response containing an error
field it returns an error record carrying the message; on a transport
failure it returns an error record carrying the exception text; and in
every case it yields either the result field or some error record. -/
theorem claim_C6 (resp : Except String Value) :
    (∀ e, resp = .error e → clientCallTool resp = .dict [("error", .str e)])
    ∧ (∀ es r, resp = .ok (.dict es) → flookup es "result" = some r →
        clientCallTool resp = r)
    ∧ (∀ es fs, resp = .ok (.dict es) → flookup es "result" = none →
        flookup es "error" = some (.dict fs) →
        clientCallTool resp = .dict [("error", (flookup fs "message").getD (.str "Unknown error"))])
    ∧ ((∃ es r, resp = .ok (.dict es) ∧ flookup es "result" = some r ∧ clientCallTool resp = r)
        ∨ (∃ m, clientCallTool resp = .dict [("error", m)])) := by
  refine ⟨?_, ?_, ?_, ?_⟩
  · rintro e rfl; rfl
  · rintro es r rfl hr
    rw [clientCallTool_ok, callToolBody_result es r hr]
  · rintro es fs rfl hr herr
    rw [clientCallTool_ok, callToolBody_error es fs hr herr]
  · match resp with
    | .error e => right; exact ⟨_, rfl⟩
    | .ok response =>
        rcases callToolBody_cases response with ⟨es, r, hresp, hr, hbody⟩ | ⟨m, hbody⟩ | ⟨e, hbody⟩
        · subst hresp
          exact Or.inl ⟨es, r, rfl, hr, by rw [clientCallTool_ok, hbody]⟩
        · right
          exact ⟨m, by rw [clientCallTool_ok, hbody]⟩
        · right
          exact ⟨.str e, by rw [clientCallTool_ok, hbody]⟩

/-- Witness for C6 at a transport failure, a result response and an
error response. -/
theorem claim_C6_witness :
    clientCallTool (.error "connection lost") = .dict [("error", .str "connection lost")]
    ∧ clientCallTool (.ok (.dict [("result", .str "ok")])) = .str "ok"
    ∧ clientCallTool (.ok (.dict [("error", .dict [("message", .str "boom")])]))
        = .dict [("error", .str "boom")] :=
  ⟨(claim_C6 _).1 "connection lost" rfl,
   (claim_C6 _).2.1 [("result", .str "ok")] (.str "ok") rfl (by decide),
   (claim_C6 _).2.2.1 [("error", .dict [("message", .str "boom")])] [("message", .str "boom")]
     rfl (by decide) (by decide)⟩

/-- Claim C7: MCPClientManager.call_tool per the three routing cases: a
name without the double-underscore separator yields the invalid-format
error record; a first-component server name with no initialized client
yields the server-not-found record; otherwise the call is delegated to
that client with the suffix and the unchanged arguments. -/
theorem claim_C7 (clients : List (String × (String → Value → Value)))
    (name : String) (args : Value) :
    (splitOnceDD name = none →
      managerCallTool clients name args
        = .dict [("error", .str ("Invalid tool name format: " ++ name))])
    ∧ (∀ serverName toolName, splitOnceDD name = some (serverName, toolName) →
        flookup clients serverName = none →
        managerCallTool clients name args
          = .dict [("error", .str ("Server " ++ serverName ++ " not found"))])
    ∧ (∀ serverName toolName clientFn, splitOnceDD name = some (serverName, toolName) →
        flookup clients serverName = some clientFn →
        managerCallTool clients name args = clientFn toolName args) := by
  refine ⟨?_, ?_, ?_⟩
  · intro h; simp [managerCallTool, h]
  · intro serverName toolName hsplit hmiss
    simp [managerCallTool, hsplit, hmiss]
  · intro serverName toolName clientFn hsplit hfound
    simp [managerCallTool, hsplit, hfound]

/-- Witness for C7 at a separator-free name, a missing server and a
delegated call. -/
theorem claim_C7_witness :
    managerCallTool [] "plainname" (.dict [])
      = .dict [("error", .str "Invalid tool name format: plainname")]
    ∧ managerCallTool [] "srv__ping" (.dict [])
      = .dict [("error", .str "Server srv not found")]
    ∧ managerCallTool [("srv", fun n _ => .dict [("called", .str n)])] "srv__ping" (.dict [])
      = .dict [("called", .str "ping")] :=
  ⟨(claim_C7 [] "plainname" (.dict [])).1 (by decide),
   (claim_C7 [] "srv__ping" (.dict [])).2.1 "srv" "ping" (by decide) (by rfl),
   ((claim_C7 [("srv", fun n _ => .dict [("called", .str n)])] "srv__ping" (.dict [])).2.2
      "srv" "ping" _ (by decide) (by rfl)).trans rfl⟩

end MCPHost

namespace MCPHost

/-! ## Claim C3: the bounded history -/

/-- For a positive window, the pruning slice keeps exactly the last
`w` entries. -/
theorem pySliceLast_eq_lastWindow {α : Type} (w : Int) (hw : 1 ≤ w) (l : List α) :
    pySliceLast w l = lastWindow w l := by
  unfold pySliceLast lastWindow
  have hneg : -w < 0 := by omega
  simp only [hneg, if_true, if_pos hneg]
  congr 1
  omega

/-- One add_message call on the bare history: a contentful message is
appended and the history keeps its last `w` entries; anything else leaves
the history unchanged. -/
theorem addMessageList_eq (w : Int) (hw : 1 ≤ w) (h : List Message) (m : Message) :
    addMessageList w h m
      = if m.has_content then lastWindow w (h ++ [m]) else h := by
  unfold addMessageList
  by_cases hc : m.has_content
  · simp only [hc, if_true]
    by_cases hlen : ((h ++ [m]).length : Int) > w
    · rw [if_pos hlen, pySliceLast_eq_lastWindow w hw]
    · rw [if_neg hlen]
      unfold lastWindow
      have : (h ++ [m]).length - w.toNat = 0 := by omega
      rw [this, List.drop_zero]
  · simp [hc]

/-- Pruning is absorbed under later appends: keeping the last `w` of a
list already pruned to its last `w`, after appending more entries, keeps
the same entries as pruning the unpruned list. -/
theorem lastWindow_absorb {α : Type} (w : Int) (l f : List α) :
    lastWindow w (lastWindow w l ++ f) = lastWindow w (l ++ f) := by
  unfold lastWindow
  rw [← List.drop_append_of_le_length (Nat.sub_le l.length w.toNat), List.drop_drop]
  congr 1
  simp only [List.length_append, List.length_drop]
  omega

/-- Folding add_message over any incoming sequence from a history within
the window yields the last `w` entries of the contentful messages. -/
theorem foldl_addMessageList (w : Int) (hw : 1 ≤ w) :
    ∀ (incoming : List Message) (h : List Message), h.length ≤ w.toNat →
      List.foldl (addMessageList w) h incoming
        = lastWindow w (h ++ incoming.filter (fun m => m.has_content)) := by
  intro incoming
  induction incoming with
  | nil =>
      intro h hlen
      unfold lastWindow
      have : h.length - w.toNat = 0 := by omega
      simp [this]
  | cons m rest ih =>
      intro h hlen
      simp only [List.foldl_cons]
      rw [addMessageList_eq w hw]
      by_cases hc : m.has_content
      · simp only [hc, if_true]
        rw [ih (lastWindow w (h ++ [m])) (by unfold lastWindow; simp; omega)]
        rw [lastWindow_absorb]
        simp [List.filter_cons, hc]
      · have hc2 : m.has_content = false := by simpa using hc
        simp only [hc2, Bool.false_eq_true, if_false]
        rw [ih h hlen]
        simp [List.filter_cons, hc2]

/-- Claim C3: after every sequence of add_message calls on a ChatSession
with a positive window (default 10), the history has at most `w` entries,
every stored message has a non-empty content sequence (a message with
empty content is never stored), and the history is exactly the last `w`
of the contentful messages in arrival order (the oldest entries are the
ones dropped). -/
theorem claim_C3 (w : Int) (hw : 1 ≤ w) (incoming : List Message) :
    ((historyAfter w incoming).length : Int) ≤ w
    ∧ (∀ m ∈ historyAfter w incoming, 1 ≤ m.content.length)
    ∧ historyAfter w incoming = lastWindow w (incoming.filter (fun m => m.has_content)) := by
  have hmain : historyAfter w incoming
      = lastWindow w (incoming.filter (fun m => m.has_content)) := by
    unfold historyAfter
    rw [foldl_addMessageList w hw incoming [] (by simp)]
    simp
  refine ⟨?_, ?_, hmain⟩
  · rw [hmain]
    unfold lastWindow
    simp
    omega
  · intro m hm
    rw [hmain] at hm
    have hm2 : m ∈ incoming.filter (fun m => m.has_content) :=
      List.mem_of_mem_drop hm
    have := List.of_mem_filter hm2
    simp [Message.has_content] at this
    omega

/-- Witness for C3 at the default window 10 with a contentful and an
empty message. -/
theorem claim_C3_witness :
    ((historyAfter 10
        [Message.mk "user" [ContentBlock.mk "text" (some "hi") none none none none none],
         Message.mk "assistant" []]).length : Int) ≤ 10 :=
  (claim_C3 10 (by norm_num) _).1

end MCPHost

namespace MCPHost

/-! ## Claim C9: the tool cache -/

/-- Running get_all_tools over a prefix of the call sequence produces the
prefix of the results. -/
theorem runGetAllTools_take :
    ∀ (calls : List (Bool × ClientsEnv)) (c : Option (List Value)) (i : Nat),
      runGetAllTools c (calls.take i) = (runGetAllTools c calls).take i := by
  intro calls
  induction calls with
  | nil => intro c i; simp [runGetAllTools]
  | cons x rest ih =>
      intro c i
      match i with
      | 0 => simp [runGetAllTools]
      | i + 1 =>
          match x with
          | (skip, env) =>
              simp only [List.take_succ_cons, runGetAllTools]
              rw [ih]

/-- A call with skip_refresh set, made while the cache holds a value,
returns exactly that value and does not refresh; the clients supplied to
that call are never consulted. -/
theorem runGet_skip :
    ∀ (calls : List (Bool × ClientsEnv)) (c : Option (List Value)) (i : Nat)
      (env : ClientsEnv) (ts : List Value),
      calls[i]? = some (true, env) →
      cacheAfterCalls c (calls.take i) = some ts →
      (runGetAllTools c calls)[i]? = some (false, ts) := by
  intro calls
  induction calls with
  | nil => intro c i env ts hcall; simp at hcall
  | cons x rest ih =>
      intro c i env ts hcall hcache
      match i with
      | 0 =>
          simp only [List.getElem?_cons_zero, Option.some.injEq] at hcall
          subst hcall
          simp only [List.take_zero, cacheAfterCalls] at hcache
          subst hcache
          simp [runGetAllTools, getAllTools]
      | i + 1 =>
          match x with
          | (skip0, env0) =>
              simp only [List.getElem?_cons_succ] at hcall
              simp only [List.take_succ_cons, cacheAfterCalls] at hcache
              simp only [runGetAllTools, List.getElem?_cons_succ]
              exact ih _ i env ts hcall hcache

/-- Whenever the cache holds a value at the end of a call sequence, that
value is the result of the most recent call that actually refreshed, with
no refreshing call after it; or no call refreshed and the value was the
starting cache. -/
theorem cache_origin :
    ∀ (calls : List (Bool × ClientsEnv)) (c : Option (List Value)) (ts : List Value),
      cacheAfterCalls c calls = some ts →
      (∃ j, j < calls.length ∧ (runGetAllTools c calls)[j]? = some (true, ts)
          ∧ ∀ k, j < k → k < calls.length →
              ∃ p, (runGetAllTools c calls)[k]? = some (false, p))
      ∨ (c = some ts ∧ ∀ k, k < calls.length →
            ∃ p, (runGetAllTools c calls)[k]? = some (false, p)) := by
  intro calls
  induction calls with
  | nil =>
      intro c ts hc
      right
      exact ⟨hc, by intro k hk; simp at hk⟩
  | cons x rest ih =>
      intro c ts hc
      match x with
      | (skip, env) =>
          simp only [cacheAfterCalls] at hc
          rcases ih _ ts hc with ⟨j, hj, hget, hafter⟩ | ⟨hc2, hall⟩
          · left
            refine ⟨j + 1, by simpa using Nat.succ_lt_succ hj, ?_, ?_⟩
            · simpa [runGetAllTools] using hget
            · intro k hk1 hk2
              match k with
              | 0 => omega
              | k + 1 =>
                  have := hafter k (by omega) (by simpa using Nat.lt_of_succ_lt_succ hk2)
                  simpa [runGetAllTools] using this
          · by_cases hskip : (skip && c.isSome) = true
            · right
              have hcond : skip ∧ c ≠ none := by
                rcases Bool.and_eq_true_iff.mp hskip with ⟨h1, h2⟩
                exact ⟨h1, by simpa [Option.isSome_iff_ne_none] using h2⟩
              have hcache2 : (getAllTools env skip c).2 = c := by
                simp [getAllTools, if_pos hcond]
              refine ⟨by rw [← hcache2]; exact hc2, ?_⟩
              intro k hk
              match k with
              | 0 =>
                  refine ⟨(getAllTools env skip c).1, ?_⟩
                  simp [runGetAllTools, hskip]
              | k + 1 =>
                  have := hall k (by simpa using Nat.lt_of_succ_lt_succ hk)
                  simpa [runGetAllTools] using this
            · left
              have hcond : ¬(skip ∧ c ≠ none) := by
                intro ⟨h1, h2⟩
                exact hskip (by simp [h1, Option.isSome_iff_ne_none.mpr h2])
              have hre : (getAllTools env skip c).2 = some (getAllTools env skip c).1 := by
                simp [getAllTools, if_neg hcond]
              have hts : (getAllTools env skip c).1 = ts := by
                have := hc2
                rw [hre] at this
                exact (Option.some.injEq _ _ ▸ this).symm ▸ rfl
              refine ⟨0, by simp, ?_, ?_⟩
              · have hflag : (!(skip && c.isSome)) = true := by simp [hskip]
                simp [runGetAllTools, hflag, hts]
              · intro k hk1 hk2
                match k with
                | 0 => omega
                | k + 1 =>
                    have := hall k (by simpa using Nat.lt_of_succ_lt_succ hk2)
                    simpa [runGetAllTools] using this

/-- Claim C9: whenever the tool cache is non-empty, a
get_all_tools(skip_refresh=true) call returns exactly the result of the
most recent call that refreshed (no call between them refreshed), and it
does so from the cache, without consulting the clients supplied to it. -/
theorem claim_C9 (calls : List (Bool × ClientsEnv)) (i : Nat) (env : ClientsEnv)
    (ts : List Value)
    (hcall : calls[i]? = some (true, env))
    (hcache : cacheAfterCalls none (calls.take i) = some ts)
    (hne : ts ≠ []) :
    (runGetAllTools none calls)[i]? = some (false, ts)
    ∧ ∃ j, j < i ∧ (runGetAllTools none calls)[j]? = some (true, ts)
        ∧ ∀ k, j < k → k < i → ∃ p, (runGetAllTools none calls)[k]? = some (false, p) := by
  have hlen_i : i < calls.length := by
    by_contra hge
    rw [List.getElem?_eq_none (by omega)] at hcall
    exact Option.noConfusion hcall
  refine ⟨runGet_skip calls none i env ts hcall hcache, ?_⟩
  rcases cache_origin (calls.take i) none ts hcache with ⟨j, hj, hget, hafter⟩ | ⟨hc, _⟩
  · have hjlt : j < i := by
      have : (calls.take i).length ≤ i := by simp
      omega
    refine ⟨j, hjlt, ?_, ?_⟩
    · rw [runGetAllTools_take, List.getElem?_take_of_lt hjlt] at hget
      exact hget
    · intro k hk1 hk2
      have hklen : k < (calls.take i).length := by
        simp
        omega
      obtain ⟨p, hp⟩ := hafter k hk1 hklen
      rw [runGetAllTools_take, List.getElem?_take_of_lt hk2] at hp
      exact ⟨p, hp⟩
  · exact absurd hc (by simp)

/-- Witness for C9: one refreshing call discovering a ping tool, then a
skip_refresh call returning the same namespaced catalog. -/
theorem claim_C9_witness :
    ([(false, [("srv", Except.ok [Value.dict [("name", Value.str "ping")]])]),
      (true, ([] : ClientsEnv))] : List (Bool × ClientsEnv))[1]?
        = some (true, ([] : ClientsEnv))
    ∧ (runGetAllTools none
        [(false, [("srv", Except.ok [Value.dict [("name", Value.str "ping")]])]),
         (true, ([] : ClientsEnv))])[1]?
        = some (false, [Value.dict [("name", Value.str "srv__ping")]]) := by
  refine ⟨rfl, ?_⟩
  exact (claim_C9
    [(false, [("srv", Except.ok [Value.dict [("name", Value.str "ping")]])]),
     (true, ([] : ClientsEnv))] 1 ([] : ClientsEnv)
    [Value.dict [("name", Value.str "srv__ping")]]
    rfl rfl (by decide)).1

end MCPHost

namespace MCPHost

/-! ## Claim C8: the stdio response loop -/

/-- On traces whose decoded lines are all JSON objects, the code loop
equals the spec loop: skip notifications and non-matching traffic, return
the first response whose id equals the request id, raise Timeout once the
deadline has elapsed at a loop guard. -/
theorem sendLoop_eq_spec (rid : Value) :
    ∀ events : List ReadEvent, events.all lineDictOk = true →
      sendLoop rid events = sendLoopSpec rid events := by
  intro events
  induction events with
  | nil => intro h; rfl
  | cons e rest ih =>
      intro h
      rw [List.all_cons, Bool.and_eq_true] at h
      obtain ⟨hhead, hrest⟩ := h
      by_cases ht : e.tElapsed < stdioTimeoutMs
      · cases houtcome : e.outcome with
        | timeoutErr => simp [sendLoop, sendLoopSpec, ht, houtcome, ih hrest]
        | eof => simp [sendLoop, sendLoopSpec, ht, houtcome, ih hrest]
        | line parsed =>
            cases parsed with
            | none => simp [sendLoop, sendLoopSpec, ht, houtcome, ih hrest]
            | some v =>
                have hd : isDict v = true := by
                  unfold lineDictOk at hhead
                  rw [houtcome] at hhead
                  exact hhead
                match v with
                | .dict entries =>
                    cases hid : flookup entries "id" with
                    | none =>
                        cases hm : flookup entries "method" with
                        | none =>
                            simp [sendLoop, sendLoopSpec, ht, houtcome, ih hrest, pyIn,
                              mBindOk, mPure, hid, hm, idOfResponse]
                        | some mv =>
                            simp [sendLoop, sendLoopSpec, ht, houtcome, ih hrest, pyIn,
                              mBindOk, mPure, hid, hm, idOfResponse]
                    | some idv =>
                        by_cases heq : idv = rid
                        · subst heq
                          simp [sendLoop, sendLoopSpec, ht, houtcome, pyIn, pyGetItem,
                            mBindOk, mPure, hid, idOfResponse]
                        · simp [sendLoop, sendLoopSpec, ht, houtcome, ih hrest, pyIn,
                            pyGetItem, mBindOk, mPure, hid, heq, idOfResponse]
      · simp [sendLoop, sendLoopSpec, ht]

/-- Claim C8, amended to object-valued traffic: a message with a method
and no id returns the empty dict immediately without reading any stdout
event; any other message runs the response loop, which on traces whose
decoded lines are all JSON objects behaves exactly as the specified skip,
first-match and deadline rules (a line whose JSON value is not an object
can instead raise a TypeError, see the counterexample). -/
theorem claim_C8 (message : Value) (entries : List (String × Value))
    (events : List ReadEvent)
    (hmsg : message = .dict entries)
    (hdicts : events.all lineDictOk = true) :
    ((flookup entries "method").isSome → flookup entries "id" = none →
        sendMessage message events = .response (.dict []))
    ∧ (¬ ((flookup entries "method").isSome ∧ flookup entries "id" = none) →
        sendMessage message events
          = sendLoopSpec ((flookup entries "id").getD .null) events) := by
  subst hmsg
  constructor
  · intro hmeth hid
    simp [sendMessage, pyIn, mBindOk, mPure, hmeth, hid]
  · intro hcond
    have hflag : ((flookup entries "method").isSome
        && !(flookup entries "id").isSome) = false := by
      cases hid : flookup entries "id" with
      | none =>
          cases hmeth : flookup entries "method" with
          | none => simp
          | some mv => exact absurd ⟨by simp [hmeth], hid⟩ hcond
      | some idv => simp
    simp only [sendMessage, pyIn, mBindOk, mPure, hflag, pyDictGet, Bool.false_eq_true,
      if_false]
    exact sendLoop_eq_spec _ events hdicts

/-- Claim C8, counterexample: on a stream whose first line is the bare
JSON number 42 followed by the matching response, send_message raises a
TypeError (the membership test on an int) instead of skipping the line
and returning the first response whose id matches, as the claim states. -/
theorem claim_C8_counterexample :
    sendMessage (.dict [("jsonrpc", .str "2.0"), ("id", .int 1), ("method", .str "tools/call")])
        [⟨0, .line (some (.int 42))⟩,
         ⟨50, .line (some (.dict [("id", .int 1), ("result", .str "ok")]))⟩]
      = .raised "TypeError: argument of type is not iterable"
    ∧ sendLoopSpec (.int 1)
        [⟨0, .line (some (.int 42))⟩,
         ⟨50, .line (some (.dict [("id", .int 1), ("result", .str "ok")]))⟩]
      = .response (.dict [("id", .int 1), ("result", .str "ok")]) :=
  ⟨rfl, rfl⟩

/-- Witness for C8: a request with id 1 against a trace carrying a
notification, a per-read timeout, a response for another id, the matching
response and later traffic; the matching response is returned. -/
theorem claim_C8_witness :
    sendMessage (.dict [("jsonrpc", .str "2.0"), ("id", .int 1), ("method", .str "tools/call")])
        [⟨0, .line (some (.dict [("method", .str "notices/progress")]))⟩,
         ⟨20, .timeoutErr⟩,
         ⟨2100, .line (some (.dict [("id", .int 7), ("result", .str "other")]))⟩,
         ⟨2200, .line (some (.dict [("id", .int 1), ("result", .str "pong")]))⟩,
         ⟨2300, .line (some (.dict [("id", .int 9)]))⟩]
      = .response (.dict [("id", .int 1), ("result", .str "pong")]) :=
  ((claim_C8 _ [("jsonrpc", .str "2.0"), ("id", .int 1), ("method", .str "tools/call")]
      _ rfl (by decide)).2 (by decide)).trans (by decide)

end MCPHost

namespace MCPHost

/-! ## Claim C10: namespaced names bypass the tool map -/

/-- Claim C10: a model-supplied tool name containing the double
underscore resolves to itself, whatever the tool mapping holds; when its
server half names no connected client, the appended tool message carries
the manager text about the missing server (behind the transform marker
Error:), not the tool-not-found text used for unresolved unqualified
names; and those two texts always differ. -/
theorem claim_C10 (mapping : List (String × String))
    (clients : List (String × (String → Value → Value)))
    (jloads : String → Option Value) (st : SessState) (toolId : Option String)
    (name serverName suffix : String) (tinput : Option Value)
    (hsplit : splitOnceDD name = some (serverName, suffix))
    (hmiss : flookup clients serverName = none) :
    getNamespacedToolName mapping name = some name
    ∧ processOneToolCall jloads (fun n a => .ok (managerCallTool clients n a)) st
        (toolId, some name, tinput)
      = .ok (addMessage st (toolErrorMessage toolId
          ("Error: " ++ ("Server " ++ serverName ++ " not found"))))
    ∧ ("Error: " ++ ("Server " ++ serverName ++ " not found"))
        ≠ ("Error: Tool \x27" ++ name
            ++ "\x27 not found or not available in any connected server.") := by
  have hdd : containsDD name = true := by
    simp [containsDD, hsplit]
  have hne : name ≠ "" := by
    intro h
    rw [h] at hsplit
    exact Option.noConfusion hsplit
  refine ⟨?_, ?_, ?_⟩
  · simp [getNamespacedToolName, hdd]
  · simp [processOneToolCall, getNamespacedToolName, hdd, hne, managerCallTool, hsplit,
      hmiss, transformToolResultContent, dictTransform, flookup, pyFormat,
      toolErrorMessage, toolResultMessage, textBlock]
  · intro hcontra
    have hS : ("Error: " ++ ("Server " ++ serverName ++ " not found")).data.get? 7
        = some 'S' := rfl
    have hT : ("Error: Tool \x27" ++ name
        ++ "\x27 not found or not available in any connected server.").data.get? 7
        = some 'T' := rfl
    have hST : (some 'S' : Option Char) = some 'T' := by
      rw [← hS, hcontra, hT]
    exact absurd hST (by decide)

/-- Witness for C10 at the name nosrv__ping against an empty client set
and a mapping that deliberately binds the full name elsewhere: the name
still resolves to itself and the appended message carries the manager
server-not-found text. -/
theorem claim_C10_witness :
    getNamespacedToolName [("nosrv__ping", "other__tool")] "nosrv__ping"
        = some "nosrv__ping"
    ∧ processOneToolCall stubJloads (fun n a => .ok (managerCallTool [] n a)) initState
        (some "42", some "nosrv__ping", none)
      = .ok (addMessage initState (toolErrorMessage (some "42")
          ("Error: " ++ ("Server " ++ "nosrv" ++ " not found")))) :=
  ⟨(claim_C10 [("nosrv__ping", "other__tool")] [] stubJloads initState (some "42")
      "nosrv__ping" "nosrv" "ping" none rfl rfl).1,
   (claim_C10 [("nosrv__ping", "other__tool")] [] stubJloads initState (some "42")
      "nosrv__ping" "nosrv" "ping" none rfl rfl).2.1⟩

end MCPHost
